import Mathlib

/-!
Verification of the sandboxed skill execution engine
(`src/agent/plugin_engine.rs` of the supercode-ai repository).

The embedding translates the Rust code into executable Lean definitions:

* guest linear memory is a list of byte values; the wasmtime
  `Memory::read(offset, buf)` bounds check becomes `memRead`;
* the `host.write` and `host.readdir` closures registered with
  `linker.func_wrap` become `writeStep` and `readdirStep`, acting on the
  per-call accumulator (a `String`, mirroring the `Arc<Mutex<String>>`
  host buffer);
* a guest entry point is modelled by the trace of capability calls it
  performs, followed by an optional runtime trap — the only way a guest
  interacts with the host state in this engine;
* `PluginEngine.call_skill` mirrors the Rust method line by line:
  registry lookup, fresh host state with an empty accumulator,
  instantiation, entry-point resolution (`run` first, then `_start`),
  invocation, and draining of the accumulator;
* `PluginEngine.load_skills` mirrors the directory scan, including the
  in-place `HashMap::insert` mutation of `self.modules`.

Machine integers: the guest passes `i32` values; the Rust code casts them
to `usize` (`ptr as usize`, `len as usize`) on a 64-bit host, which
sign-extends.  `usizeOfI32` performs that conversion on `Int`.
`vec![0u8; n]` panics with a capacity overflow when `n` exceeds
`isize::MAX`; `writeStep`/`readdirStep` model that branch explicitly as
the `panicked` outcome, which propagates out of `call_skill` (wasmtime
resumes a host-function panic on the host side of the call).
-/

/-- `ptr as usize` / `len as usize` for an `i32` value on a 64-bit host:
sign-extension, i.e. reduction modulo `2^64`. -/
def usizeOfI32 (v : Int) : Nat := (v % (2 ^ 64 : Int)).toNat

/-- `isize::MAX` on a 64-bit host.  `vec![0u8; n]` panics with
"capacity overflow" exactly when `n > isize::MAX`. -/
def isizeMax : Nat := 2 ^ 63 - 1

/-- The bytes `[ptr, ptr+len)` of a guest linear memory. -/
def memSlice (mem : List Nat) (ptr len : Nat) : List Nat :=
  (mem.drop ptr).take len

/-- `wasmtime::Memory::read(&caller, ptr, &mut buf)`: succeeds and fills
`buf` from `[ptr, ptr+len)` when the range is inside the memory,
otherwise returns an error. -/
def memRead (mem : List Nat) (ptr len : Nat) : Option (List Nat) :=
  if ptr + len ≤ mem.length then some (memSlice mem ptr len) else none

/-! ### Lossy UTF-8 decoding (`String::from_utf8_lossy`)

Rust replaces each maximal subpart of an ill-formed subsequence with one
U+FFFD replacement character.  `utf8Step` decodes one scalar from the
head byte `b` and the remaining bytes, returning the decoded character
and how many bytes of the remainder were consumed (0 to 3). -/

/-- A UTF-8 continuation byte: `0x80..=0xBF`. -/
def isCont (b : Nat) : Bool := 0x80 ≤ b && b ≤ 0xBF

/-- Admissible second byte of a three-byte sequence led by `b`
(`0xE0`: `0xA0..=0xBF`, `0xED`: `0x80..=0x9F`, otherwise a plain
continuation byte). -/
def cont2ok (b c : Nat) : Bool :=
  if b = 0xE0 then 0xA0 ≤ c && c ≤ 0xBF
  else if b = 0xED then 0x80 ≤ c && c ≤ 0x9F
  else isCont c

/-- Admissible second byte of a four-byte sequence led by `b`
(`0xF0`: `0x90..=0xBF`, `0xF4`: `0x80..=0x8F`, otherwise a plain
continuation byte). -/
def cont3ok (b c : Nat) : Bool :=
  if b = 0xF0 then 0x90 ≤ c && c ≤ 0xBF
  else if b = 0xF4 then 0x80 ≤ c && c ≤ 0x8F
  else isCont c

/-- The U+FFFD replacement character. -/
def replChar : Char := Char.ofNat 0xFFFD

/-- Decode one scalar value: the decoded character and the number of
bytes consumed from `rest` (the lead byte `b` is always consumed). -/
def utf8Step (b : Nat) (rest : List Nat) : Char × Nat :=
  if b < 0x80 then (Char.ofNat b, 0)
  else if b < 0xC2 then (replChar, 0)
  else if b < 0xE0 then
    match rest with
    | c1 :: _ => if isCont c1 then (Char.ofNat ((b - 0xC0) * 0x40 + (c1 - 0x80)), 1)
                 else (replChar, 0)
    | [] => (replChar, 0)
  else if b < 0xF0 then
    match rest with
    | c1 :: c2 :: _ =>
      if cont2ok b c1 then
        if isCont c2 then
          (Char.ofNat ((b - 0xE0) * 0x1000 + (c1 - 0x80) * 0x40 + (c2 - 0x80)), 2)
        else (replChar, 1)
      else (replChar, 0)
    | [c1] => if cont2ok b c1 then (replChar, 1) else (replChar, 0)
    | [] => (replChar, 0)
  else if b < 0xF5 then
    match rest with
    | c1 :: c2 :: c3 :: _ =>
      if cont3ok b c1 then
        if isCont c2 then
          if isCont c3 then
            (Char.ofNat ((b - 0xF0) * 0x40000 + (c1 - 0x80) * 0x1000 +
              (c2 - 0x80) * 0x40 + (c3 - 0x80)), 3)
          else (replChar, 2)
        else (replChar, 1)
      else (replChar, 0)
    | [c1, c2] =>
      if cont3ok b c1 then
        if isCont c2 then (replChar, 2) else (replChar, 1)
      else (replChar, 0)
    | [c1] => if cont3ok b c1 then (replChar, 1) else (replChar, 0)
    | [] => (replChar, 0)
  else (replChar, 0)

/-- Fuel-indexed decoding loop; each iteration consumes at least the
lead byte, so fuel equal to the list length never runs out. -/
def utf8LossyAux : Nat → List Nat → List Char
  | _, [] => []
  | 0, _ :: _ => []
  | fuel + 1, b :: rest =>
    (utf8Step b rest).1 :: utf8LossyAux fuel (rest.drop (utf8Step b rest).2)

/-- `String::from_utf8_lossy` as a list-of-characters function. -/
def utf8DecodeLossy (l : List Nat) : List Char := utf8LossyAux l.length l

/-- `String::from_utf8_lossy(&buf).to_string()`. -/
def utf8LossyString (l : List Nat) : String := String.mk (utf8DecodeLossy l)

/-! ### JSON serialization (`serde_json::to_string` of a `Vec<String>`) -/

/-- Lowercase hexadecimal digit, as written by serde_json `\u00XX`
escapes. -/
def hexDigit (n : Nat) : Char :=
  if n < 10 then Char.ofNat (48 + n) else Char.ofNat (87 + n)

/-- serde_json escaping of one character inside a string literal:
quote and backslash are escaped, the control characters `\b \t \n \f \r`
have short escapes, other control characters use `\u00XX`, everything
else is emitted verbatim. -/
def jsonEscapeChar (c : Char) : List Char :=
  if c = Char.ofNat 34 then [Char.ofNat 92, Char.ofNat 34]
  else if c = Char.ofNat 92 then [Char.ofNat 92, Char.ofNat 92]
  else if c = Char.ofNat 8 then [Char.ofNat 92, 'b']
  else if c = Char.ofNat 9 then [Char.ofNat 92, 't']
  else if c = Char.ofNat 10 then [Char.ofNat 92, 'n']
  else if c = Char.ofNat 12 then [Char.ofNat 92, 'f']
  else if c = Char.ofNat 13 then [Char.ofNat 92, 'r']
  else if c.toNat < 32 then
    [Char.ofNat 92, 'u', '0', '0', hexDigit (c.toNat / 16), hexDigit (c.toNat % 16)]
  else [c]

/-- A JSON string literal. -/
def jsonStringLit (s : String) : String :=
  String.mk (Char.ofNat 34 :: (s.data.map jsonEscapeChar).flatten ++ [Char.ofNat 34])

/-- `serde_json::to_string(&list)` for `list : Vec<String>` (this
serialization is total: the `Err` branch of the Rust `match` is
unreachable for a vector of strings). -/
def jsonArray (l : List String) : String :=
  "[" ++ String.intercalate "," (l.map jsonStringLit) ++ "]"

/-! ### The capability host ABI -/

/-- Outcome of one host-capability closure invocation: the updated
accumulator, or a Rust panic inside the closure (which wasmtime resumes
on the host side, aborting the whole `call_skill`). -/
inductive StepOutcome where
  | ok (acc : String)
  | panicked
deriving DecidableEq

/-- The `host.write(ptr, len)` closure (plugin_engine.rs lines 89-104):
if the guest exports no memory under the name `memory`, return unit;
allocate `vec![0u8; len as usize]` (panics when the cast length exceeds
`isize::MAX`, i.e. for every negative `len`); if the memory read fails,
return unit; otherwise push the lossy UTF-8 decoding onto the
accumulator. -/
def writeStep (mem? : Option (List Nat)) (ptr len : Int) (acc : String) : StepOutcome :=
  match mem? with
  | none => .ok acc
  | some mem =>
    if isizeMax < usizeOfI32 len then .panicked
    else
      match memRead mem (usizeOfI32 ptr) (usizeOfI32 len) with
      | none => .ok acc
      | some bytes => .ok (acc ++ utf8LossyString bytes)

/-- Host filesystem view: `read_dir path` either yields the (UTF-8
decodable) entry names of the directory or fails. -/
def dirList (fsm : String → Option (List String)) (path : String) : List String :=
  match fsm path with
  | some entries => entries
  | none => []

/-- The `host.readdir(ptr, len)` closure (plugin_engine.rs lines
107-131): same memory handling as `writeStep`; the path is the lossy
UTF-8 decoding of the bytes read; the entry list is empty when
`read_dir` fails (note: the JSON text is pushed in either case — the
`list` vector simply stays empty on failure). -/
def readdirStep (fsm : String → Option (List String)) (mem? : Option (List Nat))
    (ptr len : Int) (acc : String) : StepOutcome :=
  match mem? with
  | none => .ok acc
  | some mem =>
    if isizeMax < usizeOfI32 len then .panicked
    else
      match memRead mem (usizeOfI32 ptr) (usizeOfI32 len) with
      | none => .ok acc
      | some bytes => .ok (acc ++ jsonArray (dirList fsm (utf8LossyString bytes)))

/-! ### Guest modules and the invocation host -/

/-- One capability call the guest makes during its entry point. -/
inductive GuestEvent where
  | write (ptr len : Int)
  | readdir (ptr len : Int)
deriving DecidableEq

/-- Observable behavior of a guest entry-point function: the capability
calls it performs in order, then an optional runtime trap (with the
guest-reported trap description). -/
structure EntryBehavior where
  events : List GuestEvent
  trap : Option String
deriving DecidableEq

/-- A compiled guest module, described by what the engine can observe of
it: the linear memory exported under the exact name `memory` (if any),
the exported functions `run` and `_start` (if any) as their behaviors,
whether instantiation succeeds (import resolution), and whether
`func.typed::<(), ()>` accepts each entry point. -/
structure GuestModule where
  memExport : Option (List Nat)
  runExport : Option EntryBehavior
  startExport : Option EntryBehavior
  instErr : Option String
  runTypeOk : Bool
  startTypeOk : Bool
deriving DecidableEq

/-- Error taxonomy of `call_skill` (the Rust code returns `anyhow`
errors; the constructors record their provenance). -/
inductive CallError where
  | skillNotFound
  | instantiation (msg : String)
  | typeMismatch (msg : String)
  | trap (msg : String)
deriving DecidableEq

/-- Result of a whole `call_skill` invocation: `Ok(out)`, an error
returned to the caller, or a host-side panic escaping `call_skill`. -/
inductive CallOutcome where
  | ok (out : String)
  | err (e : CallError)
  | panicked
deriving DecidableEq

/-- Dispatch one guest capability call to the matching host closure. -/
def stepEvent (fsm : String → Option (List String)) (mem? : Option (List Nat)) :
    GuestEvent → String → StepOutcome
  | .write p l, acc => writeStep mem? p l acc
  | .readdir p l, acc => readdirStep fsm mem? p l acc

/-- Run the trace of capability calls of a guest entry point over the
accumulator; a panic in any closure aborts the run. -/
def runEvents (fsm : String → Option (List String)) (mem? : Option (List Nat)) :
    List GuestEvent → String → StepOutcome
  | [], acc => .ok acc
  | e :: es, acc =>
    match stepEvent fsm mem? e acc with
    | .ok acc2 => runEvents fsm mem? es acc2
    | .panicked => .panicked

/-- Invoke one resolved entry point: check its `(), ()` type, run its
capability-call trace starting from the accumulator as it stands (the
caller passes the freshly created empty one), then surface a trap as an
error (`call.call(...)?`). -/
def invokeEntry (fsm : String → Option (List String)) (mem? : Option (List Nat))
    (typeOk : Bool) (beh : EntryBehavior) : CallOutcome :=
  if typeOk then
    match runEvents fsm mem? beh.events "" with
    | .panicked => .panicked
    | .ok acc =>
      match beh.trap with
      | some msg => .err (.trap msg)
      | none => .ok acc
  else .err (.typeMismatch "entry point has wrong signature")

/-- The skill registry: `HashMap<String, Module>` as an association
list with `insert`-replaces-existing-key semantics. -/
def regLookup : List (String × GuestModule) → String → Option GuestModule
  | [], _ => none
  | (k, v) :: rest, name => if k = name then some v else regLookup rest name

/-- `HashMap::insert`: replace the value of an existing key, otherwise
add a new binding. -/
def regInsert : List (String × GuestModule) → String → GuestModule →
    List (String × GuestModule)
  | [], k, v => [(k, v)]
  | (k2, v2) :: rest, k, v =>
    if k2 = k then (k, v) :: rest else (k2, v2) :: regInsert rest k v

/-- The engine: the compiled-module cache (the wasmtime `Engine` itself
and the skills directory path carry no per-skill state). -/
structure PluginEngine where
  modules : List (String × GuestModule)
deriving DecidableEq

/-- `PluginEngine::call_skill` (plugin_engine.rs lines 69-149), taking
the ambient filesystem as a parameter.  `_input` is accepted and
ignored, exactly as in the Rust signature.  Steps: registry lookup
(miss → "skill not found"); fresh host state whose accumulator starts
empty; instantiation (`linker.instantiate(...)?`); entry-point
resolution trying the export `run` first and `_start` only when `run`
is absent; invocation; finally the accumulator is drained and
returned (so a module with neither entry point yields `Ok("")`). -/
def PluginEngine.call_skill (pe : PluginEngine) (fsm : String → Option (List String))
    (name : String) (_input : Option String) : CallOutcome :=
  match regLookup pe.modules name with
  | none => .err .skillNotFound
  | some m =>
    match m.instErr with
    | some e => .err (.instantiation e)
    | none =>
      match m.runExport with
      | some beh => invokeEntry fsm m.memExport m.runTypeOk beh
      | none =>
        match m.startExport with
        | some beh => invokeEntry fsm m.memExport m.startTypeOk beh
        | none => .ok ""

/-! ### The directory scan (`PluginEngine::load_skills`) -/

/-- One entry of the skills directory as `load_skills` observes it:
whether it is a regular file, its stem and extension as decoded by
`file_stem().and_then(to_str)` / `extension().and_then(to_str)`, and
the result of compiling it (`none` = the compile step fails; for a
`.wasm` file that step is `Module::from_file`, for a `.wat` file it is
`read_to_string` + `wat::parse_str` + `Module::new`). -/
structure DirEntryM where
  isFile : Bool
  stem : Option String
  ext : Option String
  compiled : Option GuestModule
deriving DecidableEq

/-- `PluginEngine::load_skills` (plugin_engine.rs lines 43-64) from the
loop onward (`create_dir_all` and `read_dir` failures abort before any
mutation).  The registry is mutated in place by `HashMap::insert`; the
first component of the result is the error of the failing iteration, if
any, and the second is the engine as it stands at that point — note
that a failure does NOT roll back insertions already performed. -/
def PluginEngine.load_skills (pe : PluginEngine) :
    List DirEntryM → Option String × PluginEngine
  | [] => (none, pe)
  | e :: rest =>
    if e.isFile then
      if e.ext.getD "" = "wasm" then
        match e.compiled with
        | some m =>
          PluginEngine.load_skills ⟨regInsert pe.modules (e.stem.getD "skill") m⟩ rest
        | none => (some "compile error", pe)
      else if e.ext.getD "" = "wat" then
        match e.compiled with
        | some m =>
          PluginEngine.load_skills ⟨regInsert pe.modules (e.stem.getD "skill") m⟩ rest
        | none => (some "compile error", pe)
      else PluginEngine.load_skills pe rest
    else PluginEngine.load_skills pe rest

/-- A directory entry is recognized when it is a regular file with the
`wasm` or `wat` extension. -/
def recognized (e : DirEntryM) : Bool :=
  e.isFile && (e.ext.getD "" == "wasm" || e.ext.getD "" == "wat")

/-- The skill names a scan derives from its recognized files. -/
def scanNames : List DirEntryM → List String
  | [] => []
  | e :: rest =>
    if recognized e then e.stem.getD "skill" :: scanNames rest else scanNames rest

/-! ### Concrete instances used in witnesses and counterexamples -/

/-- A filesystem on which every directory read fails. -/
def fsEmpty : String → Option (List String) := fun _ => none

/-- The bytes of the literal `Hello Wasm!`. -/
def helloBytes : List Nat := [72, 101, 108, 108, 111, 32, 87, 97, 115, 109, 33]

/-- The test guest of plugin_engine.rs: exports `memory` with
`Hello Wasm!` at offset 0 and a `run` function that performs
`host.write(0, 11)`. -/
def helloModule : GuestModule :=
  { memExport := some helloBytes
    runExport := some ⟨[.write 0 11], none⟩
    startExport := none
    instErr := none
    runTypeOk := true
    startTypeOk := true }

/-- An engine whose registry holds `helloModule` under `hello`. -/
def helloEngine : PluginEngine := ⟨[("hello", helloModule)]⟩

/-- A module that exports nothing at all. -/
def staleModule : GuestModule :=
  { memExport := none, runExport := none, startExport := none,
    instErr := none, runTypeOk := true, startTypeOk := true }

/-- A directory entry `a.wasm` that compiles fine. -/
def goodEntryA : DirEntryM := ⟨true, some "a", some "wasm", some staleModule⟩

/-- A directory entry `b.wasm` whose compilation fails. -/
def badEntryB : DirEntryM := ⟨true, some "b", some "wasm", none⟩

/-- Memory bytes spelling the path `/no` (a directory that does not
exist on `fsEmpty`). -/
def missingDirBytes : List Nat := [47, 110, 111]

/-- A guest whose `run` calls `host.readdir(0, 3)` on the path `/no`. -/
def readdirBadModule : GuestModule :=
  { memExport := some missingDirBytes
    runExport := some ⟨[.readdir 0 3], none⟩
    startExport := none
    instErr := none
    runTypeOk := true
    startTypeOk := true }

/-- Engine registering `readdirBadModule` under `bad`. -/
def readdirBadEngine : PluginEngine := ⟨[("bad", readdirBadModule)]⟩

/-- A guest (with exported memory) whose `run` calls
`host.write(0, -1)`. -/
def negLenModule : GuestModule :=
  { memExport := some helloBytes
    runExport := some ⟨[.write 0 (-1)], none⟩
    startExport := none
    instErr := none
    runTypeOk := true
    startTypeOk := true }

/-- Engine registering `negLenModule` under `neg`. -/
def negLenEngine : PluginEngine := ⟨[("neg", negLenModule)]⟩

/-- A guest whose `run` performs no capability call at all. -/
def idleModule : GuestModule :=
  { memExport := none, runExport := some ⟨[], none⟩, startExport := none,
    instErr := none, runTypeOk := true, startTypeOk := true }

/-- Engine registering `idleModule` under `idle`. -/
def idleEngine : PluginEngine := ⟨[("idle", idleModule)]⟩

/-- A guest whose `run` immediately traps with description `boom`. -/
def trapModule : GuestModule :=
  { memExport := none, runExport := some ⟨[], some "boom"⟩, startExport := none,
    instErr := none, runTypeOk := true, startTypeOk := true }

/-- A guest exporting only `_start`, which immediately traps with
description `boom`. -/
def trapStartModule : GuestModule :=
  { memExport := none, runExport := none,
    startExport := some ⟨[], some "boom"⟩,
    instErr := none, runTypeOk := true, startTypeOk := true }

/-- Engine registering `trapModule` under `tr` and `trapStartModule`
under `ts`. -/
def trapEngine : PluginEngine :=
  ⟨[("tr", trapModule), ("ts", trapStartModule)]⟩

/-- A guest without a `memory` export whose entry performs capability
calls, one of them with a negative length. -/
def noMemModule : GuestModule :=
  { memExport := none
    runExport := some ⟨[.write 0 5, .readdir 0 (-2)], none⟩
    startExport := none
    instErr := none
    runTypeOk := true
    startTypeOk := true }

/-- Engine registering `noMemModule` under `nomem`. -/
def noMemEngine : PluginEngine := ⟨[("nomem", noMemModule)]⟩

/-! ### Helper lemmas -/

theorem data_append (s t : String) : (s ++ t).data = s.data ++ t.data := by
  cases s; cases t; rfl

theorem usizeOfI32_eq_toNat (v : Int) (h0 : 0 ≤ v) (h1 : v < 2 ^ 64) :
    usizeOfI32 v = v.toNat := by
  unfold usizeOfI32
  rw [Int.emod_eq_of_lt h0 h1]

theorem memRead_of_le (mem : List Nat) (p l : Nat) (h : p + l ≤ mem.length) :
    memRead mem p l = some (memSlice mem p l) := by
  unfold memRead
  rw [if_pos h]

theorem writeStep_ok_of_in_bounds (mem : List Nat) (acc : String) (p l : Int)
    (hp0 : 0 ≤ p) (hl0 : 0 ≤ l) (hp : p < 2 ^ 31) (hl : l < 2 ^ 31)
    (hb : p.toNat + l.toNat ≤ mem.length) :
    writeStep (some mem) p l acc =
      .ok (acc ++ utf8LossyString (memSlice mem p.toNat l.toNat)) := by
  have h64 : ((2 : Int) ^ 31) < 2 ^ 64 := by norm_num
  have hpu : usizeOfI32 p = p.toNat := usizeOfI32_eq_toNat p hp0 (lt_trans hp h64)
  have hlu : usizeOfI32 l = l.toNat := usizeOfI32_eq_toNat l hl0 (lt_trans hl h64)
  have hl31 : l < (2147483648 : Int) := by norm_num at hl; exact hl
  have hmax : ¬ isizeMax < usizeOfI32 l := by
    rw [hlu]
    have h1 : l.toNat < 2147483648 := by omega
    have h2 : isizeMax = 9223372036854775807 := by norm_num [isizeMax]
    omega
  simp only [writeStep]
  rw [if_neg hmax, hpu, hlu, memRead_of_le mem p.toNat l.toNat hb]

theorem readdirStep_ok_of_in_bounds (fsm : String → Option (List String))
    (mem : List Nat) (acc : String) (p l : Int)
    (hp0 : 0 ≤ p) (hl0 : 0 ≤ l) (hp : p < 2 ^ 31) (hl : l < 2 ^ 31)
    (hb : p.toNat + l.toNat ≤ mem.length) :
    readdirStep fsm (some mem) p l acc =
      .ok (acc ++ jsonArray (dirList fsm (utf8LossyString (memSlice mem p.toNat l.toNat)))) := by
  have h64 : ((2 : Int) ^ 31) < 2 ^ 64 := by norm_num
  have hpu : usizeOfI32 p = p.toNat := usizeOfI32_eq_toNat p hp0 (lt_trans hp h64)
  have hlu : usizeOfI32 l = l.toNat := usizeOfI32_eq_toNat l hl0 (lt_trans hl h64)
  have hl31 : l < (2147483648 : Int) := by norm_num at hl; exact hl
  have hmax : ¬ isizeMax < usizeOfI32 l := by
    rw [hlu]
    have h1 : l.toNat < 2147483648 := by omega
    have h2 : isizeMax = 9223372036854775807 := by norm_num [isizeMax]
    omega
  simp only [readdirStep]
  rw [if_neg hmax, hpu, hlu, memRead_of_le mem p.toNat l.toNat hb]

theorem stepEvent_ok_append (fsm : String → Option (List String))
    (mem? : Option (List Nat)) (e : GuestEvent) (acc acc2 : String)
    (h : stepEvent fsm mem? e acc = .ok acc2) :
    ∃ t, acc2.data = acc.data ++ t := by
  cases e with
  | write p l =>
    cases mem? with
    | none =>
      simp only [stepEvent, writeStep, StepOutcome.ok.injEq] at h
      exact ⟨[], by rw [← h, List.append_nil]⟩
    | some mem =>
      simp only [stepEvent, writeStep] at h
      split at h
      · simp at h
      · split at h
        · simp only [StepOutcome.ok.injEq] at h
          exact ⟨[], by rw [← h, List.append_nil]⟩
        · simp only [StepOutcome.ok.injEq] at h
          exact ⟨_, by rw [← h, data_append]⟩
  | readdir p l =>
    cases mem? with
    | none =>
      simp only [stepEvent, readdirStep, StepOutcome.ok.injEq] at h
      exact ⟨[], by rw [← h, List.append_nil]⟩
    | some mem =>
      simp only [stepEvent, readdirStep] at h
      split at h
      · simp at h
      · split at h
        · simp only [StepOutcome.ok.injEq] at h
          exact ⟨[], by rw [← h, List.append_nil]⟩
        · simp only [StepOutcome.ok.injEq] at h
          exact ⟨_, by rw [← h, data_append]⟩

theorem runEvents_ok_append (fsm : String → Option (List String))
    (mem? : Option (List Nat)) (es : List GuestEvent) (acc acc2 : String)
    (h : runEvents fsm mem? es acc = .ok acc2) :
    ∃ t, acc2.data = acc.data ++ t := by
  induction es generalizing acc with
  | nil =>
    simp only [runEvents, StepOutcome.ok.injEq] at h
    exact ⟨[], by rw [← h, List.append_nil]⟩
  | cons e es ih =>
    simp only [runEvents] at h
    cases hs : stepEvent fsm mem? e acc with
    | panicked => rw [hs] at h; simp at h
    | ok a2 =>
      rw [hs] at h
      obtain ⟨t2, ht2⟩ := ih a2 h
      obtain ⟨t1, ht1⟩ := stepEvent_ok_append fsm mem? e acc a2 hs
      exact ⟨t1 ++ t2, by rw [ht2, ht1, List.append_assoc]⟩

theorem runEvents_append (fsm : String → Option (List String))
    (mem? : Option (List Nat)) (l1 l2 : List GuestEvent) (acc : String) :
    runEvents fsm mem? (l1 ++ l2) acc =
      match runEvents fsm mem? l1 acc with
      | .ok a => runEvents fsm mem? l2 a
      | .panicked => .panicked := by
  induction l1 generalizing acc with
  | nil => rfl
  | cons e es ih =>
    simp only [List.cons_append, runEvents]
    cases stepEvent fsm mem? e acc with
    | ok a2 => exact ih a2
    | panicked => rfl

theorem runEvents_no_memory (fsm : String → Option (List String))
    (es : List GuestEvent) (acc : String) :
    runEvents fsm none es acc = .ok acc := by
  induction es with
  | nil => rfl
  | cons e es ih =>
    have hs : stepEvent fsm none e acc = .ok acc := by cases e <;> rfl
    simp only [runEvents, hs, ih]

theorem call_skill_run (pe : PluginEngine) (fsm : String → Option (List String))
    (name : String) (i : Option String) (m : GuestModule) (beh : EntryBehavior)
    (hl : regLookup pe.modules name = some m) (hi : m.instErr = none)
    (hr : m.runExport = some beh) :
    pe.call_skill fsm name i = invokeEntry fsm m.memExport m.runTypeOk beh := by
  simp [PluginEngine.call_skill, hl, hi, hr]

theorem call_skill_start (pe : PluginEngine) (fsm : String → Option (List String))
    (name : String) (i : Option String) (m : GuestModule) (beh : EntryBehavior)
    (hl : regLookup pe.modules name = some m) (hi : m.instErr = none)
    (hr : m.runExport = none) (hs : m.startExport = some beh) :
    pe.call_skill fsm name i = invokeEntry fsm m.memExport m.startTypeOk beh := by
  simp [PluginEngine.call_skill, hl, hi, hr, hs]

theorem call_skill_no_entry (pe : PluginEngine) (fsm : String → Option (List String))
    (name : String) (i : Option String) (m : GuestModule)
    (hl : regLookup pe.modules name = some m) (hi : m.instErr = none)
    (hr : m.runExport = none) (hs : m.startExport = none) :
    pe.call_skill fsm name i = .ok "" := by
  simp [PluginEngine.call_skill, hl, hi, hr, hs]

theorem invokeEntry_ok (fsm : String → Option (List String)) (mem? : Option (List Nat))
    (beh : EntryBehavior) (acc : String)
    (hev : runEvents fsm mem? beh.events "" = .ok acc) (htrap : beh.trap = none) :
    invokeEntry fsm mem? true beh = .ok acc := by
  simp [invokeEntry, hev, htrap]

theorem call_skill_run_ok (pe : PluginEngine) (fsm : String → Option (List String))
    (name : String) (i : Option String) (m : GuestModule) (beh : EntryBehavior)
    (acc : String)
    (hl : regLookup pe.modules name = some m) (hi : m.instErr = none)
    (hr : m.runExport = some beh) (ht : m.runTypeOk = true)
    (hev : runEvents fsm m.memExport beh.events "" = .ok acc)
    (htrap : beh.trap = none) :
    pe.call_skill fsm name i = .ok acc := by
  rw [call_skill_run pe fsm name i m beh hl hi hr, ht]
  exact invokeEntry_ok fsm m.memExport beh acc hev htrap

theorem regLookup_insert_ne (reg : List (String × GuestModule)) (n k : String)
    (m : GuestModule) (h : k ≠ n) :
    regLookup (regInsert reg n m) k = regLookup reg k := by
  induction reg with
  | nil => simp [regInsert, regLookup, Ne.symm h]
  | cons p rest ih =>
    obtain ⟨k2, v2⟩ := p
    by_cases h2 : k2 = n
    · subst h2
      simp [regInsert, regLookup, Ne.symm h]
    · by_cases h3 : k2 = k
      · simp [regInsert, regLookup, h2, h3, h]
      · simp [regInsert, regLookup, h2, h3, ih]

theorem load_skills_append (d1 d2 : List DirEntryM) :
    ∀ pe : PluginEngine, pe.load_skills (d1 ++ d2) =
      match pe.load_skills d1 with
      | (none, pe2) => pe2.load_skills d2
      | (some msg, pe2) => (some msg, pe2) := by
  induction d1 with
  | nil => intro pe; rfl
  | cons e rest ih =>
    intro pe
    simp only [List.cons_append, PluginEngine.load_skills]
    split
    · split
      · cases hc : e.compiled with
        | some m => simp only [hc]; exact ih _
        | none => simp [hc]
      · split
        · cases hc : e.compiled with
          | some m => simp only [hc]; exact ih _
          | none => simp [hc]
        · exact ih pe
    · exact ih pe

theorem load_skills_fail_head (pe : PluginEngine) (e : DirEntryM) (es2 : List DirEntryM)
    (hrec : recognized e = true) (hc : e.compiled = none) :
    pe.load_skills (e :: es2) = (some "compile error", pe) := by
  simp only [recognized, Bool.and_eq_true, Bool.or_eq_true, beq_iff_eq] at hrec
  obtain ⟨hf, hext⟩ := hrec
  rcases hext with hw | hw
  · simp [PluginEngine.load_skills, hf, hw, hc]
  · by_cases hw2 : e.ext.getD "" = "wasm"
    · simp [PluginEngine.load_skills, hf, hw2, hc]
    · simp [PluginEngine.load_skills, hf, hw2, hw, hc]

theorem scanNames_cons_rec (e : DirEntryM) (rest : List DirEntryM)
    (h : recognized e = true) :
    scanNames (e :: rest) = e.stem.getD "skill" :: scanNames rest := by
  simp [scanNames, h]

theorem scanNames_cons_notrec (e : DirEntryM) (rest : List DirEntryM)
    (h : recognized e = false) :
    scanNames (e :: rest) = scanNames rest := by
  simp [scanNames, h]

theorem load_skills_preserves_unscanned (dir : List DirEntryM) (k : String) :
    ∀ pe : PluginEngine, (pe.load_skills dir).1 = none → k ∉ scanNames dir →
      regLookup ((pe.load_skills dir).2).modules k = regLookup pe.modules k := by
  induction dir with
  | nil => intro pe _ _; rfl
  | cons e rest ih =>
    intro pe hok hk
    by_cases hf : e.isFile = true
    · by_cases hw : e.ext.getD "" = "wasm"
      · have hrec : recognized e = true := by
          simp [recognized, hf, hw]
        rw [scanNames_cons_rec e rest hrec, List.mem_cons] at hk
        push_neg at hk
        cases hc : e.compiled with
        | none =>
          exfalso
          simp [PluginEngine.load_skills, hf, hw, hc] at hok
        | some m =>
          have hunfold : pe.load_skills (e :: rest) =
              (PluginEngine.mk (regInsert pe.modules (e.stem.getD "skill") m)).load_skills rest := by
            simp [PluginEngine.load_skills, hf, hw, hc]
          rw [hunfold] at hok ⊢
          rw [ih _ hok hk.2]
          exact regLookup_insert_ne pe.modules (e.stem.getD "skill") k m hk.1
      · by_cases hw2 : e.ext.getD "" = "wat"
        · have hrec : recognized e = true := by
            simp [recognized, hf, hw2]
          rw [scanNames_cons_rec e rest hrec, List.mem_cons] at hk
          push_neg at hk
          cases hc : e.compiled with
          | none =>
            exfalso
            simp [PluginEngine.load_skills, hf, hw, hw2, hc] at hok
          | some m =>
            have hunfold : pe.load_skills (e :: rest) =
                (PluginEngine.mk (regInsert pe.modules (e.stem.getD "skill") m)).load_skills rest := by
              simp [PluginEngine.load_skills, hf, hw, hw2, hc]
            rw [hunfold] at hok ⊢
            rw [ih _ hok hk.2]
            exact regLookup_insert_ne pe.modules (e.stem.getD "skill") k m hk.1
        · have hrec : recognized e = false := by
            simp [recognized, hw, hw2]
          rw [scanNames_cons_notrec e rest hrec] at hk
          have hunfold : pe.load_skills (e :: rest) = pe.load_skills rest := by
            simp [PluginEngine.load_skills, hf, hw, hw2]
          rw [hunfold] at hok ⊢
          exact ih pe hok hk
    · have hrec : recognized e = false := by
        simp [recognized, hf]
      rw [scanNames_cons_notrec e rest hrec] at hk
      have hunfold : pe.load_skills (e :: rest) = pe.load_skills rest := by
        simp [PluginEngine.load_skills, hf]
      rw [hunfold] at hok ⊢
      exact ih pe hok hk

theorem runEvents_append_ok (fsm : String → Option (List String))
    (mem? : Option (List Nat)) (l1 l2 : List GuestEvent) (acc a : String)
    (h1 : runEvents fsm mem? l1 acc = .ok a) :
    runEvents fsm mem? (l1 ++ l2) acc = runEvents fsm mem? l2 a := by
  induction l1 generalizing acc with
  | nil =>
    simp only [runEvents, StepOutcome.ok.injEq] at h1
    rw [List.nil_append, h1]
  | cons e es ih =>
    simp only [List.cons_append, runEvents] at h1 ⊢
    cases hs : stepEvent fsm mem? e acc with
    | panicked => rw [hs] at h1; simp at h1
    | ok a2 =>
      simp only [hs] at h1 ⊢
      exact ih a2 h1

theorem runEvents_append_panicked (fsm : String → Option (List String))
    (mem? : Option (List Nat)) (l1 l2 : List GuestEvent) (acc : String)
    (h1 : runEvents fsm mem? l1 acc = .panicked) :
    runEvents fsm mem? (l1 ++ l2) acc = .panicked := by
  induction l1 generalizing acc with
  | nil => simp [runEvents] at h1
  | cons e es ih =>
    simp only [List.cons_append, runEvents] at h1 ⊢
    cases hs : stepEvent fsm mem? e acc with
    | panicked => simp only [hs]
    | ok a2 =>
      simp only [hs] at h1 ⊢
      exact ih a2 h1

/-! ### Claim theorems -/

/-- Claim C1: for every guest `write` with a pointer/length pair lying
entirely inside the exported linear memory, the host appends exactly
the lossy UTF-8 decoding of the addressed bytes to the per-call
accumulator (first conjunct), the string `call_skill` returns contains
that appended text (second conjunct, for any invocation whose entry
performs such a write), and the concrete `Hello Wasm!` guest of the
repository test yields a result containing `Hello Wasm!` (third
conjunct). -/
theorem write_capability_roundtrip (mem : List Nat) (acc : String) (p l : Int)
    (hp0 : 0 ≤ p) (hl0 : 0 ≤ l) (hp : p < 2 ^ 31) (hl : l < 2 ^ 31)
    (hb : p.toNat + l.toNat ≤ mem.length) :
    writeStep (some mem) p l acc =
      .ok (acc ++ utf8LossyString (memSlice mem p.toNat l.toNat))
    ∧ (∀ (fsm : String → Option (List String)) (pe : PluginEngine) (name : String)
        (i : Option String) (m : GuestModule) (beh : EntryBehavior)
        (es1 es2 : List GuestEvent) (final : String),
        regLookup pe.modules name = some m → m.instErr = none →
        m.runExport = some beh → m.runTypeOk = true → beh.trap = none →
        m.memExport = some mem →
        beh.events = es1 ++ GuestEvent.write p l :: es2 →
        runEvents fsm (some mem) beh.events "" = .ok final →
        pe.call_skill fsm name i = .ok final ∧
          ∃ u v, final.data =
            u ++ (utf8LossyString (memSlice mem p.toNat l.toNat)).data ++ v)
    ∧ (helloEngine.call_skill fsEmpty "hello" none = .ok "Hello Wasm!" ∧
        ∃ u v, ("Hello Wasm!" : String).data = u ++ ("Hello Wasm!" : String).data ++ v) := by
  refine ⟨writeStep_ok_of_in_bounds mem acc p l hp0 hl0 hp hl hb, ?_, by decide,
    ⟨[], [], by simp⟩⟩
  intro fsm pe name i m beh es1 es2 final hlk hi hr ht htrap hmem hev hrun
  refine ⟨call_skill_run_ok pe fsm name i m beh final hlk hi hr ht
    (by rw [hmem]; exact hrun) htrap, ?_⟩
  rw [hev] at hrun
  cases h1 : runEvents fsm (some mem) es1 "" with
  | panicked =>
    rw [runEvents_append_panicked fsm (some mem) es1 _ "" h1] at hrun
    simp at hrun
  | ok a1 =>
    rw [runEvents_append_ok fsm (some mem) es1 _ "" a1 h1] at hrun
    have hw := writeStep_ok_of_in_bounds mem a1 p l hp0 hl0 hp hl hb
    simp only [runEvents, stepEvent, hw] at hrun
    obtain ⟨t, ht2⟩ := runEvents_ok_append fsm (some mem) es2 _ final hrun
    exact ⟨a1.data, t, by rw [ht2, data_append, List.append_assoc]⟩

/-- Witness for C1 at the concrete `Hello Wasm!` guest: `ptr = 0`,
`len = 11`, memory holding the literal bytes. -/
theorem write_capability_roundtrip_witness :
    writeStep (some helloBytes) 0 11 "" =
      .ok ("" ++ utf8LossyString (memSlice helloBytes (0 : Int).toNat (11 : Int).toNat))
    ∧ helloEngine.call_skill fsEmpty "hello" none = .ok "Hello Wasm!" :=
  ⟨(write_capability_roundtrip helloBytes "" 0 11 (by decide) (by decide) (by decide)
      (by decide) (by decide)).1,
   (write_capability_roundtrip helloBytes "" 0 11 (by decide) (by decide) (by decide)
      (by decide) (by decide)).2.2.1⟩

/-- Claim C2, counterexample: a `readdir` on a path that cannot be read
(`/no` on a filesystem where every directory read fails) does NOT leave
the accumulator unchanged — the code appends the JSON empty array
`[]`, so the claim as stated is false at this input (the invocation
does complete successfully, but with two bytes of output). -/
theorem readdir_missing_dir_not_silent :
    readdirBadEngine.call_skill fsEmpty "bad" none = .ok "[]"
    ∧ readdirStep fsEmpty (some missingDirBytes) 0 3 "" = .ok "[]"
    ∧ ("[]" : String) ≠ "" := by decide

/-- Claim C2 (amended): when the decoded path cannot be read as a
directory, the `readdir` capability appends exactly the two-character
JSON empty array `[]` to the accumulator (the entry list stays empty
and is still serialized), and the invocation completes and returns
successfully. -/
theorem readdir_failure_appends_empty_json (fsm : String → Option (List String))
    (mem : List Nat) (acc : String) (p l : Int)
    (hp0 : 0 ≤ p) (hl0 : 0 ≤ l) (hp : p < 2 ^ 31) (hl : l < 2 ^ 31)
    (hb : p.toNat + l.toNat ≤ mem.length)
    (hf : fsm (utf8LossyString (memSlice mem p.toNat l.toNat)) = none) :
    readdirStep fsm (some mem) p l acc = .ok (acc ++ "[]")
    ∧ (∀ (pe : PluginEngine) (name : String) (i : Option String) (m : GuestModule),
        regLookup pe.modules name = some m → m.instErr = none →
        m.memExport = some mem → m.runTypeOk = true →
        m.runExport = some ⟨[GuestEvent.readdir p l], none⟩ →
        pe.call_skill fsm name i = .ok "[]") := by
  have hjson : jsonArray (dirList fsm (utf8LossyString (memSlice mem p.toNat l.toNat))) = "[]" := by
    rw [show dirList fsm (utf8LossyString (memSlice mem p.toNat l.toNat)) = [] from by
      simp [dirList, hf]]
    decide
  have hstep : ∀ a, readdirStep fsm (some mem) p l a = .ok (a ++ "[]") := by
    intro a
    rw [readdirStep_ok_of_in_bounds fsm mem a p l hp0 hl0 hp hl hb, hjson]
  constructor
  · exact hstep acc
  · intro pe name i m hl2 hi hmem ht hr
    have hev : runEvents fsm m.memExport [GuestEvent.readdir p l] "" = .ok "[]" := by
      rw [hmem]
      have h0 : ("" ++ "[]" : String) = "[]" := by decide
      simp only [runEvents, stepEvent, hstep "", h0]
    exact call_skill_run_ok pe fsm name i m ⟨[GuestEvent.readdir p l], none⟩ "[]"
      hl2 hi hr ht hev rfl

/-- Witness for the amended C2 at the concrete missing-path guest. -/
theorem readdir_failure_appends_empty_json_witness :
    readdirStep fsEmpty (some missingDirBytes) 0 3 "x" = .ok ("x" ++ "[]")
    ∧ readdirBadEngine.call_skill fsEmpty "bad" none = .ok "[]" :=
  ⟨(readdir_failure_appends_empty_json fsEmpty missingDirBytes "x" 0 3 (by decide)
      (by decide) (by decide) (by decide) (by decide) (by decide)).1,
   (readdir_failure_appends_empty_json fsEmpty missingDirBytes "x" 0 3 (by decide)
      (by decide) (by decide) (by decide) (by decide) (by decide)).2
     readdirBadEngine "bad" none readdirBadModule (by decide) (by decide) (by decide)
     (by decide) (by decide)⟩

/-- Claim C3, counterexample: `load_skills` leaves partial and merged
state.  First pair of conjuncts: a successful rescan of an empty
directory keeps the stale entry `old`, so on success the mapping does
NOT contain exactly the names of the current scan.  Second pair: with
an initially empty registry, a scan of `a.wasm` (good) then `b.wasm`
(compile failure) fails, yet the registry now contains `a` — not
unchanged from before the call. -/
theorem load_skills_partial_and_stale :
    ((PluginEngine.mk [("old", staleModule)]).load_skills []).1 = none
    ∧ regLookup (((PluginEngine.mk [("old", staleModule)]).load_skills []).2).modules
        "old" = some staleModule
    ∧ ((PluginEngine.mk []).load_skills [goodEntryA, badEntryB]).1 = some "compile error"
    ∧ regLookup (((PluginEngine.mk []).load_skills [goodEntryA, badEntryB]).2).modules
        "a" = some staleModule := by
  decide

/-- Claim C3 (amended): `load_skills` is fail-fast — the first compile
failure among recognized files aborts the pass, leaving later entries
unprocessed, but insertions already performed persist (the registry is
the state reached just before the failing file, not the pre-call
state); and on success the scan is merged into the existing mapping by
per-name insertion, so entries whose names are not produced by the
current scan survive unchanged. -/
theorem load_skills_fail_fast_and_merge (pe : PluginEngine) :
    (∀ (es1 : List DirEntryM) (e : DirEntryM) (es2 : List DirEntryM),
       (pe.load_skills es1).1 = none → recognized e = true → e.compiled = none →
       pe.load_skills (es1 ++ e :: es2) = (some "compile error", (pe.load_skills es1).2))
    ∧ (∀ (dir : List DirEntryM) (k : String),
       (pe.load_skills dir).1 = none → k ∉ scanNames dir →
       regLookup ((pe.load_skills dir).2).modules k = regLookup pe.modules k) := by
  constructor
  · intro es1 e es2 h1 hrec hc
    have happ := load_skills_append es1 (e :: es2) pe
    rw [show pe.load_skills es1 = (none, (pe.load_skills es1).2) from by rw [← h1]] at happ
    rw [happ]
    exact load_skills_fail_head (pe.load_skills es1).2 e es2 hrec hc
  · intro dir k hok hk
    exact load_skills_preserves_unscanned dir k pe hok hk

/-- Witness for the amended C3: the concrete fail-fast scan and the
concrete stale-survival rescan. -/
theorem load_skills_fail_fast_and_merge_witness :
    (PluginEngine.mk []).load_skills ([goodEntryA] ++ badEntryB :: []) =
      (some "compile error", ((PluginEngine.mk []).load_skills [goodEntryA]).2)
    ∧ regLookup (((PluginEngine.mk [("old", staleModule)]).load_skills []).2).modules
        "old" = regLookup (PluginEngine.mk [("old", staleModule)]).modules "old" :=
  ⟨(load_skills_fail_fast_and_merge (PluginEngine.mk [])).1 [goodEntryA] badEntryB []
      (by decide) (by decide) (by decide),
   (load_skills_fail_fast_and_merge (PluginEngine.mk [("old", staleModule)])).2 [] "old"
      (by decide) (by decide)⟩

/-- Claim C4 (code bug, evaluated at the failing input): a guest
`write` with a negative length is NOT swallowed — the closure computes
`len as usize` (sign-extended to `2^64 - 1`) and `vec![0u8; ...]`
panics with a capacity overflow before the memory-export bounds check
can run, and the panic escapes `call_skill`.  The model evaluates the
closure and the whole invocation to `panicked` at `ptr = 0`,
`len = -1`. -/
theorem write_negative_len_panics :
    writeStep (some helloBytes) 0 (-1) "" = .panicked
    ∧ negLenEngine.call_skill fsEmpty "neg" none = .panicked := by
  decide

/-- Claim C5: the entry point is resolved by trying the export `run`
first (first conjunct — the conclusion does not depend on the
`_start` export, so when both exist only `run` is invoked), the export
`_start` is tried only when `run` is absent (second conjunct), and a
module exporting neither performs no guest call and yields `Ok` with
the empty string (third conjunct). -/
theorem entry_point_resolution (fsm : String → Option (List String))
    (pe : PluginEngine) (name : String) (i : Option String) (m : GuestModule)
    (hl : regLookup pe.modules name = some m) (hi : m.instErr = none) :
    (∀ beh, m.runExport = some beh →
       pe.call_skill fsm name i = invokeEntry fsm m.memExport m.runTypeOk beh)
    ∧ (m.runExport = none → ∀ beh, m.startExport = some beh →
       pe.call_skill fsm name i = invokeEntry fsm m.memExport m.startTypeOk beh)
    ∧ (m.runExport = none → m.startExport = none →
       pe.call_skill fsm name i = .ok "") :=
  ⟨fun beh hr => call_skill_run pe fsm name i m beh hl hi hr,
   fun hr beh hs => call_skill_start pe fsm name i m beh hl hi hr hs,
   fun hr hs => call_skill_no_entry pe fsm name i m hl hi hr hs⟩

/-- Witness for C5: the `hello` module resolves through `run`; a
module with neither export returns the empty string. -/
theorem entry_point_resolution_witness :
    helloEngine.call_skill fsEmpty "hello" none =
      invokeEntry fsEmpty helloModule.memExport helloModule.runTypeOk
        ⟨[GuestEvent.write 0 11], none⟩
    ∧ (PluginEngine.mk [("empty", staleModule)]).call_skill fsEmpty "empty" none = .ok "" :=
  ⟨(entry_point_resolution fsEmpty helloEngine "hello" none helloModule (by decide)
      (by decide)).1 ⟨[GuestEvent.write 0 11], none⟩ (by decide),
   (entry_point_resolution fsEmpty (PluginEngine.mk [("empty", staleModule)]) "empty"
      none staleModule (by decide) (by decide)).2.2 (by decide) (by decide)⟩

/-- Claim C6: every call builds a fresh, initially empty accumulator —
the result of a call is computed by running the entry trace from the
empty string (first conjunct), so a call whose guest performs no
capability call returns the empty string (second conjunct), whatever
any other call did: `call_skill` borrows the engine immutably and
shares no mutable state between calls (in the model it is a pure
function of the engine, filesystem and name). -/
theorem call_skill_fresh_accumulator (fsm : String → Option (List String))
    (pe : PluginEngine) (name : String) (i : Option String) (m : GuestModule)
    (beh : EntryBehavior)
    (hl : regLookup pe.modules name = some m) (hi : m.instErr = none)
    (hr : m.runExport = some beh) (ht : m.runTypeOk = true)
    (htrap : beh.trap = none) :
    (∀ acc, runEvents fsm m.memExport beh.events "" = .ok acc →
       pe.call_skill fsm name i = .ok acc)
    ∧ (beh.events = [] → pe.call_skill fsm name i = .ok "") := by
  constructor
  · intro acc hev
    exact call_skill_run_ok pe fsm name i m beh acc hl hi hr ht hev htrap
  · intro hev
    exact call_skill_run_ok pe fsm name i m beh "" hl hi hr ht (by rw [hev]; rfl) htrap

/-- Witness for C6: a second call to a skill that performs no `write`
returns the empty string. -/
theorem call_skill_fresh_accumulator_witness :
    idleEngine.call_skill fsEmpty "idle" none = .ok "" :=
  (call_skill_fresh_accumulator fsEmpty idleEngine "idle" none idleModule ⟨[], none⟩
    (by decide) (by decide) (by decide) (by decide) (by decide)).2 (by decide)

/-- Claim C7: a name absent from the registry makes `call_skill`
return the skill-not-found error, before any execution context is
built (the lookup is the first step of the model, mirroring line 73 of
the source, which precedes the `Store` construction of line 85); the
model is a total function, so the call terminates without panicking. -/
theorem unknown_skill_not_found (fsm : String → Option (List String))
    (pe : PluginEngine) (name : String) (i : Option String)
    (h : regLookup pe.modules name = none) :
    pe.call_skill fsm name i = .err .skillNotFound := by
  simp [PluginEngine.call_skill, h]

/-- Witness for C7 on the empty registry. -/
theorem unknown_skill_not_found_witness :
    (PluginEngine.mk []).call_skill fsEmpty "nope" none = .err .skillNotFound :=
  unknown_skill_not_found fsEmpty (PluginEngine.mk []) "nope" none (by decide)

/-- Claim C8: a runtime trap in the guest entry point (after its
capability calls ran without a host panic) surfaces as the
execution-trap error carrying the guest-reported description, for the
`run` entry (first conjunct) and for the `_start` fallback (second
conjunct); the outcome is an error value returned to the caller, not a
host crash (`panicked`). -/
theorem guest_trap_surfaced (fsm : String → Option (List String))
    (pe : PluginEngine) (name : String) (i : Option String) (m : GuestModule)
    (hl : regLookup pe.modules name = some m) (hi : m.instErr = none) :
    (∀ beh msg acc, m.runExport = some beh → m.runTypeOk = true →
       runEvents fsm m.memExport beh.events "" = .ok acc → beh.trap = some msg →
       pe.call_skill fsm name i = .err (.trap msg))
    ∧ (∀ beh msg acc, m.runExport = none → m.startExport = some beh →
       m.startTypeOk = true →
       runEvents fsm m.memExport beh.events "" = .ok acc → beh.trap = some msg →
       pe.call_skill fsm name i = .err (.trap msg)) := by
  constructor
  · intro beh msg acc hr ht hev htrap
    rw [call_skill_run pe fsm name i m beh hl hi hr, ht]
    simp [invokeEntry, hev, htrap]
  · intro beh msg acc hr hs ht hev htrap
    rw [call_skill_start pe fsm name i m beh hl hi hr hs, ht]
    simp [invokeEntry, hev, htrap]

/-- Witness for C8: guests trapping with description `boom` through
`run` and through `_start`. -/
theorem guest_trap_surfaced_witness :
    trapEngine.call_skill fsEmpty "tr" none = .err (.trap "boom")
    ∧ trapEngine.call_skill fsEmpty "ts" none = .err (.trap "boom") :=
  ⟨(guest_trap_surfaced fsEmpty trapEngine "tr" none trapModule (by decide)
      (by decide)).1 ⟨[], some "boom"⟩ "boom" "" (by decide) (by decide) (by decide)
      (by decide),
   (guest_trap_surfaced fsEmpty trapEngine "ts" none trapStartModule (by decide)
      (by decide)).2 ⟨[], some "boom"⟩ "boom" "" (by decide) (by decide) (by decide)
      (by decide) (by decide)⟩

/-- Claim C9: the `input` argument is never made visible to the guest:
for the same filesystem, engine and name, any two input values
(including `none`) produce identical results — the model, like the
Rust signature with its `_input` binder, never consults the
argument. -/
theorem input_not_wired_into_guest (fsm : String → Option (List String))
    (pe : PluginEngine) (name : String) (i1 i2 : Option String) :
    pe.call_skill fsm name i1 = pe.call_skill fsm name i2 := rfl

/-- Claim C10: for a guest module without a linear-memory export named
exactly `memory`, every `write`/`readdir` capability call is a silent
no-op (the closures return unit before touching memory — even a
negative length cannot panic, since the export check precedes the
allocation), and a whole invocation of such a guest completes with an
empty result rather than trapping or failing. -/
theorem no_memory_export_silent_noop :
    (∀ (fsm : String → Option (List String)) (e : GuestEvent) (acc : String),
       stepEvent fsm none e acc = .ok acc)
    ∧ (∀ (fsm : String → Option (List String)) (pe : PluginEngine) (name : String)
        (i : Option String) (m : GuestModule) (beh : EntryBehavior),
        regLookup pe.modules name = some m → m.memExport = none →
        m.instErr = none → m.runExport = some beh → m.runTypeOk = true →
        beh.trap = none → pe.call_skill fsm name i = .ok "") := by
  constructor
  · intro fsm e acc
    cases e <;> rfl
  · intro fsm pe name i m beh hl hmem hi hr ht htrap
    exact call_skill_run_ok pe fsm name i m beh "" hl hi hr ht
      (by rw [hmem]; exact runEvents_no_memory fsm beh.events "") htrap

/-- Witness for C10: a memory-less guest performing a `write` with a
negative length and a `readdir`, all no-ops; the invocation returns
the empty string. -/
theorem no_memory_export_silent_noop_witness :
    stepEvent fsEmpty none (GuestEvent.write 3 (-1)) "x" = .ok "x"
    ∧ noMemEngine.call_skill fsEmpty "nomem" none = .ok "" :=
  ⟨no_memory_export_silent_noop.1 fsEmpty (GuestEvent.write 3 (-1)) "x",
   no_memory_export_silent_noop.2 fsEmpty noMemEngine "nomem" none noMemModule
     ⟨[GuestEvent.write 0 5, GuestEvent.readdir 0 (-2)], none⟩ (by decide) (by decide)
     (by decide) (by decide) (by decide) (by decide)⟩
